import Mathlib

/-!
Verification development for the `trainers` package (generic.py, simclr.py):
a SimCLR-style contrastive trainer.  Pure numeric code is embedded over `ℚ`;
the external collaborators (the Keras encoder, the stochastic augmentation
function, `exp`/`log`/`sqrt`, the sklearn logistic-regression classifier)
are abstracted as function parameters, so every definition stays executable.
-/

namespace Simclr

/-! ### generic.py: configuration parsing (`_parse_configs`, `INPUT_PARAMS`) -/

/-- A value passed as a keyword argument to a trainer constructor. -/
inductive ConfigValue where
  | bool (b : Bool)
  | rat (q : ℚ)
  | nat (n : Nat)
  | str (s : String)
  | pair (a b : Nat)
  | none
deriving DecidableEq

/-- generic.py line 21: the fixed membership list of input/loader parameter keys. -/
def INPUT_PARAMS : List String :=
  ["imshape", "num_channels", "norm", "batch_size",
   "shuffle", "num_parallel_calls", "sobel", "single_channel"]

/-- The three config buckets built by `GenericExtractor._parse_configs`:
`self.config` (model), `self.input_config` (input/loader) and
`self.augment_config`. -/
structure ParsedConfig where
  config : List (String × ConfigValue)
  input_config : List (String × ConfigValue)
  augment_config : ConfigValue
deriving DecidableEq

/-- The `for k in kwargs` loop of `_parse_configs` (generic.py lines 138-144):
`augment` goes to its own bucket, keys in `INPUT_PARAMS` go to the input
bucket, everything else goes to the model bucket. -/
def parse_configs_loop : List (String × ConfigValue) → ParsedConfig → ParsedConfig
  | [], acc => acc
  | (k, v) :: rest, acc =>
    parse_configs_loop rest
      (if k = "augment" then ParsedConfig.mk acc.config acc.input_config v
       else if k ∈ INPUT_PARAMS then
         ParsedConfig.mk acc.config (acc.input_config ++ [(k, v)]) acc.augment_config
       else ParsedConfig.mk (acc.config ++ [(k, v)]) acc.input_config acc.augment_config)

/-- `GenericExtractor._parse_configs`: starts from empty buckets with
`augment_config = False` (generic.py lines 134-136) and distributes the
keyword arguments. -/
def parse_configs (kwargs : List (String × ConfigValue)) : ParsedConfig :=
  parse_configs_loop kwargs (ParsedConfig.mk [] [] (ConfigValue.bool false))

/-- The scenario keyword set from the spec: imshape=(32,32), lr=0.01, augment=True. -/
def scenario_kwargs : List (String × ConfigValue) :=
  [("imshape", ConfigValue.pair 32 32), ("lr", ConfigValue.rat (1 / 100)),
   ("augment", ConfigValue.bool true)]

/-! ### simclr.py: the pair-batch dataset builder (`_build_simclr_dataset`) -/

/-- The `augment` constructor argument: either a Python boolean or a dictionary
of augmentation parameters (kept abstract as a key/value list). -/
inductive AugmentArg where
  | bool (b : Bool)
  | params (ps : List (String × ℚ))
deriving DecidableEq

/-- Python truthiness of the `augment` argument, as tested by
`assert augment` (simclr.py line 21): `False` and the empty dict are falsy. -/
def AugmentArg.truthy : AugmentArg → Bool
  | AugmentArg.bool b => b
  | AugmentArg.params ps => !ps.isEmpty

/-- The constructor test `augment is not False` (simclr.py line 135). -/
def AugmentArg.isNotFalse : AugmentArg → Bool
  | AugmentArg.bool false => false
  | _ => true

/-- `_augment_and_stack` (simclr.py lines 27-29): each source image yields the
two independently augmented views, paired with the label row `[1, -1]`.
A view is modelled as the source image tagged with which of the two
independent augmentation draws produced it. -/
def augment_and_stack {α : Type} (x : α) : List ((α × Bool) × ℤ) :=
  [((x, false), 1), ((x, true), -1)]

/-- `tf.data.Dataset.batch(n, drop_remainder=True)`: consecutive chunks of
exactly `n` elements; a final incomplete chunk is dropped. -/
def tf_batch_drop_remainder {β : Type} (n : ℕ) (l : List β) : List (List β) :=
  (List.range (l.length / n)).map fun b => (l.drop (n * b)).take n

/-- `_build_simclr_dataset` (simclr.py lines 14-36): assert the augmentation
argument is truthy, map `_augment_and_stack` over the images, unbatch
(flatten), then rebatch into physical batches of `2*batch_size` views,
dropping any remainder.  The prefetch is a buffering hint with no effect on
the produced sequence. -/
def build_simclr_dataset {α : Type} (train_data : List α) (batch_size : ℕ)
    (augment : AugmentArg) : Except String (List (List ((α × Bool) × ℤ))) :=
  if AugmentArg.truthy augment = false then
    Except.error "dont you need to augment your data?"
  else
    Except.ok (tf_batch_drop_remainder (2 * batch_size)
      ((train_data.map augment_and_stack).flatten))

/-! ### simclr.py: trainer construction (`SimCLRTrainer.__init__`) -/

/-- The constructor state of `SimCLRTrainer` that the claims refer to.
Images are modelled as a single rational intensity; the Keras models,
file writer and optimizer are external collaborators and carry no state
relevant to the claims. -/
structure SimCLRTrainerState where
  logdir : String
  trainingdata : List String
  train_data : List ℚ
  test_data : List ℚ
  ds : List (List ((ℚ × Bool) × ℤ))
  temperature : ℚ
  lr : ℚ
  lr_decay : ℤ
  step : ℕ
deriving DecidableEq

/-- `SimCLRTrainer.__init__` (simclr.py lines 104-199): assert
`augment is not False`, load and `/255`-normalize the CIFAR-10 tensors
(passed in here as `cifar_train`/`cifar_test`), build the training dataset
from the loaded training tensor, store the hyperparameters and start the
step counter at 0.  No check is performed on `temperature`. -/
def simclr_trainer_init (cifar_train cifar_test : List ℚ) (logdir : String)
    (trainingdata : List String) (augment : AugmentArg) (temperature : ℚ)
    (lr : ℚ) (lr_decay : ℤ) (batch_size : ℕ) :
    Except String SimCLRTrainerState :=
  if AugmentArg.isNotFalse augment = false then
    Except.error "this method needs an augmentation scheme"
  else
    (build_simclr_dataset (cifar_train.map fun v => v / 255) batch_size augment).map
      fun ds =>
        SimCLRTrainerState.mk logdir trainingdata
          (cifar_train.map fun v => v / 255) (cifar_test.map fun v => v / 255)
          ds temperature lr lr_decay 0

/-- `Except.isOk`-style discriminator used to state that construction
succeeded (no precondition failure was raised). -/
def exceptOk {ε α : Type} : Except ε α → Bool
  | Except.ok _ => true
  | Except.error _ => false

/-- Everything in the trainer state except the stored `trainingdata`
argument: the observables that could influence training. -/
def observable_state (s : SimCLRTrainerState) :
    String × List ℚ × List ℚ × List (List ((ℚ × Bool) × ℤ)) × ℚ × ℚ × ℤ × ℕ :=
  (s.logdir, s.train_data, s.test_data, s.ds, s.temperature, s.lr, s.lr_decay, s.step)

/-! ### generic.py / simclr.py: the training loop (`fit`, `_run_training_epoch`, `save`) -/

/-- Observable side effects of one `fit` run: a per-batch scalar record at the
current step counter (`_record_scalars` in `_run_training_epoch`), a call to
`save` (durable storage), or a call to `evaluate`. -/
inductive TrainEvent where
  | step (n : ℕ)
  | saveModels
  | runEval
deriving DecidableEq

/-- A copy of the trainer state with the step counter replaced. -/
def set_step (s : SimCLRTrainerState) (n : ℕ) : SimCLRTrainerState :=
  SimCLRTrainerState.mk s.logdir s.trainingdata s.train_data s.test_data s.ds
    s.temperature s.lr s.lr_decay n

/-- `SimCLRTrainer._run_training_epoch` (simclr.py lines 201-210): one pass
over `self._ds`; each batch runs a training step, records the loss scalar at
the current step counter, and increments the counter. -/
def run_training_epoch (s : SimCLRTrainerState) :
    List TrainEvent × SimCLRTrainerState :=
  ((List.range s.ds.length).map fun i => TrainEvent.step (s.step + i),
   set_step s (s.step + s.ds.length))

/-- `GenericExtractor.fit` (generic.py lines 160-174): for each of `epochs`
iterations run a training epoch and, if `save`, persist the models.  The
`evaluate` call in the loop is commented out in the source, so the
`evaluate` flag is never acted on. -/
def fit : ℕ → Bool → Bool → SimCLRTrainerState → List TrainEvent × SimCLRTrainerState
  | 0, _, _, s => ([], s)
  | e + 1, save, evaluate, s =>
    let ep := run_training_epoch s
    let rest := fit e save evaluate ep.2
    (ep.1 ++ (if save then [TrainEvent.saveModels] else []) ++ rest.1, rest.2)

/-- A concrete trainer state (one batch of one augmented pair per epoch,
counter already at 5) used to instantiate the training-loop theorems. -/
def sample_trainer_state : SimCLRTrainerState :=
  SimCLRTrainerState.mk "logs" [] [] [] [[((1, false), 1), ((1, true), -1)]]
    (1 / 10) (1 / 100) 10000 5

/-- The sequence of step-counter values at which per-batch scalars were
recorded during a run. -/
def steps_of (t : List TrainEvent) : List ℕ :=
  t.filterMap fun e =>
    match e with
    | TrainEvent.step n => some n
    | _ => Option.none

/-! ### simclr.py: the training step (`_build_simclr_training_step`) -/

/-- simclr.py line 12. -/
def BIG_NUMBER : ℚ := 1000

/-- `tf.nn.l2_normalize(embeddings, axis=1)` (simclr.py line 77): divide each
row by the square root of its sum of squares.  The square root (including
tf's epsilon guard) is an external numeric routine, abstracted as `sq`. -/
def l2_normalize {m dd : ℕ} (sq : ℚ → ℚ) (e : Fin m → Fin dd → ℚ) :
    Fin m → Fin dd → ℚ :=
  fun i k => e i k / sq (∑ j, e i j * e i j)

/-- `tf.matmul(a, a, transpose_b=True)` (simclr.py line 79): the matrix of
pairwise row dot products. -/
def matmul_transpose_b {m dd : ℕ} (a : Fin m → Fin dd → ℚ) : Fin m → Fin m → ℚ :=
  fun i j => ∑ k, a i k * a j k

/-- The dot product of two vectors (used by the specification side to phrase
the pairwise similarity matrix). -/
def dot {dd : ℕ} (u v : Fin dd → ℚ) : ℚ := ∑ j, u j * v j

/-- `tf.linalg.eye(x.shape[0])` (simclr.py line 66). -/
def eyeQ (m : ℕ) : Fin m → Fin m → ℚ := fun i j => if i = j then 1 else 0

/-- The index `i + y i` used as the target class (simclr.py line 70), reduced
into the batch, as an in-range index.  For the builder's labels this is
always the twin's position. -/
def fin_add_label {m : ℕ} (i : Fin m) (yi : ℤ) : Fin m :=
  ⟨(((i : ℕ) + yi) % (m : ℤ)).toNat, by
    have hm : 0 < m := i.pos
    have hm' : ((m : ℤ)) ≠ 0 := by exact_mod_cast hm.ne'
    have h1 : 0 ≤ (((i : ℕ) : ℤ) + yi) % (m : ℤ) := Int.emod_nonneg _ hm'
    have h2 : (((i : ℕ) : ℤ) + yi) % (m : ℤ) < (m : ℤ) :=
      Int.emod_lt_of_pos _ (by exact_mod_cast hm)
    omega⟩

/-- `tf.nn.sparse_softmax_cross_entropy_with_logits(label, row)`: softmax
cross-entropy of one row of logits against the target class `t`, namely
`log (∑ j, exp (row j)) - row t`.  `exp` and `log` are the library's numeric
routines, abstracted as `ex` and `lg`. -/
def sparse_softmax_cross_entropy_with_logits {m : ℕ} (ex lg : ℚ → ℚ)
    (t : Fin m) (row : Fin m → ℚ) : ℚ :=
  lg (∑ j, ex (row j)) - row t

/-- The loss computed by `training_step` (simclr.py lines 64-86):
`embeddings` is the output of the embedding model on the batch `x`
(an external Keras collaborator); the embeddings are L2-normalized, the
pairwise similarity matrix is formed, `BIG_NUMBER * eye` is subtracted, the
result is rescaled by `temperature`, the per-row sparse softmax
cross-entropies against `index + y` are averaged, and the mean is divided by
`replicas`. -/
def training_step_loss {m dd : ℕ} (sq ex lg : ℚ → ℚ)
    (embeddings : Fin m → Fin dd → ℚ) (y : Fin m → ℤ)
    (temperature replicas : ℚ) : ℚ :=
  (∑ i, sparse_softmax_cross_entropy_with_logits ex lg (fin_add_label i (y i))
      (fun j =>
        (matmul_transpose_b (l2_normalize sq embeddings) i j
            - BIG_NUMBER * eyeQ m i j) / temperature))
    / (m : ℚ) / replicas

/-- The NT-Xent loss exactly as the specification words it, for a batch of
`2*N` views: L2-normalize each embedding, form the `2N×2N` matrix of pairwise
dot products of the normalized vectors, subtract a large constant on the
diagonal only (off-diagonal entries unmodified), divide the whole masked
matrix by the temperature, take for each row `i` the softmax cross-entropy
with target class `i + label i` over all `2N` classes, and return the mean
over the rows divided by the replica count. -/
def nt_xent_loss_spec {N dd : ℕ} (sq ex lg : ℚ → ℚ)
    (embeddings : Fin (2 * N) → Fin dd → ℚ) (label : Fin (2 * N) → ℤ)
    (temperature replicas : ℚ) : ℚ :=
  (∑ i, sparse_softmax_cross_entropy_with_logits ex lg (fin_add_label i (label i))
      (fun j =>
        (if i = j then
            dot (l2_normalize sq embeddings i) (l2_normalize sq embeddings j)
              - BIG_NUMBER
          else dot (l2_normalize sq embeddings i) (l2_normalize sq embeddings j))
          / temperature))
    / ((2 * N : ℕ) : ℚ) / replicas

/-- A diagonal entry of the masked, temperature-scaled logits
(simclr.py line 82 at `i = j`, similarity `s`): `(s - BIG_NUMBER) / τ`. -/
def diag_masked_logit (s τ : ℚ) : ℚ := (s - BIG_NUMBER) / τ

/-- An off-diagonal entry of the masked, temperature-scaled logits
(simclr.py line 82 at `i ≠ j`, similarity `s`): `s / τ`. -/
def offdiag_logit (s τ : ℚ) : ℚ := s / τ

/-! ### generic.py: the linear probe (`linear_classification_test`) -/

/-- The per-feature mean computed by `StandardScaler().fit` on the training
feature vectors. -/
def scaler_mean {d : ℕ} (X : List (Fin d → ℚ)) : Fin d → ℚ :=
  fun f => (X.map fun r => r f).sum / (X.length : ℚ)

/-- The per-feature scale (standard deviation, the square root of the biased
variance) computed by `StandardScaler().fit`; the square root is abstracted
as `sq`. -/
def scaler_scale {d : ℕ} (sq : ℚ → ℚ) (X : List (Fin d → ℚ)) : Fin d → ℚ :=
  fun f => sq ((X.map fun r => (r f - scaler_mean X f) ^ 2).sum / (X.length : ℚ))

/-- `StandardScaler.transform` with the fitted mean and scale: standardize
each feature of a vector. -/
def standard_scaler_transform {d : ℕ} (mean scale : Fin d → ℚ) (r : Fin d → ℚ) :
    Fin d → ℚ :=
  fun f => (r f - mean f) / scale f

/-- `sklearn.metrics.accuracy_score`: the fraction of positions where the
prediction equals the true label. -/
def accuracy_score (y p : List ℕ) : ℚ :=
  (((y.zip p).countP fun ab => ab.1 == ab.2 : ℕ) : ℚ) / (y.length : ℚ)

/-- `sklearn.metrics.confusion_matrix` over `Cc` label classes: entry `(i,j)`
counts the test examples with true label `i` and predicted label `j`. -/
def confusion_matrix (Cc : ℕ) (y p : List ℕ) : Fin Cc → Fin Cc → ℕ :=
  fun i j => (y.zip p).countP fun ab => ab.1 == (i : ℕ) && ab.2 == (j : ℕ)

/-- `conf_mat.max()`: the largest entry of the confusion matrix. -/
def matrix_max {Cc : ℕ} (M : Fin Cc → Fin Cc → ℕ) : ℕ :=
  Finset.sup Finset.univ fun ij : Fin Cc × Fin Cc => M ij.1 ij.2

/-- `linear_classification_test` (generic.py lines 26-68): extract pooled
feature vectors for the train and test splits (`fcn.predict` plus the two
spatial means, abstracted as `predict_pooled`), fit a standardizing scaler on
the train vectors, apply the fitted transform to train and test vectors,
fit the multinomial logistic classifier (an external sklearn collaborator,
abstracted as `logreg_fit`, which returns a predictor), predict on the
standardized test vectors, and return the test accuracy and the confusion
matrix. -/
def linear_classification_test {δ : Type} {d : ℕ} (Cc : ℕ) (sq : ℚ → ℚ)
    (predict_pooled : δ → List (Fin d → ℚ))
    (logreg_fit : List (Fin d → ℚ) → List ℕ → (Fin d → ℚ) → ℕ)
    (train_data : δ) (train_labels : List ℕ)
    (test_data : δ) (test_labels : List ℕ) :
    ℚ × (Fin Cc → Fin Cc → ℕ) :=
  let trainvecs := predict_pooled train_data
  let testvecs := predict_pooled test_data
  let mean := scaler_mean trainvecs
  let scale := scaler_scale sq trainvecs
  let trainstd := trainvecs.map (standard_scaler_transform mean scale)
  let teststd := testvecs.map (standard_scaler_transform mean scale)
  let logreg := logreg_fit trainstd train_labels
  let preds := teststd.map logreg
  (accuracy_score test_labels preds, confusion_matrix Cc test_labels preds)

/-- `GenericExtractor._linear_classification_test` (generic.py lines 205-215):
run the linear probe and emit the accuracy scalar together with the confusion
matrix normalized by its maximum entry (the `expand_dims` reshaping is pure
shape bookkeeping and is not modelled). -/
def linear_classification_metrics {δ : Type} {d : ℕ} (Cc : ℕ) (sq : ℚ → ℚ)
    (predict_pooled : δ → List (Fin d → ℚ))
    (logreg_fit : List (Fin d → ℚ) → List ℕ → (Fin d → ℚ) → ℕ)
    (train_data : δ) (train_labels : List ℕ)
    (test_data : δ) (test_labels : List ℕ) :
    ℚ × (Fin Cc → Fin Cc → ℚ) :=
  let r := linear_classification_test Cc sq predict_pooled logreg_fit
    train_data train_labels test_data test_labels
  (r.1, fun i j => ((r.2 i j : ℕ) : ℚ) / ((matrix_max r.2 : ℕ) : ℚ))

/-- The linear probe exactly as the specification words its steps 2-5: fit a
standardizing scaler on the train vectors only, apply the same fitted
transform to the test vectors, fit the classifier on standardized train
vectors and labels, predict on standardized test vectors, and emit the
accuracy together with the confusion matrix normalized by its maximum
entry. -/
def linear_probe_spec {δ : Type} {d : ℕ} (Cc : ℕ) (sq : ℚ → ℚ)
    (predict_pooled : δ → List (Fin d → ℚ))
    (logreg_fit : List (Fin d → ℚ) → List ℕ → (Fin d → ℚ) → ℕ)
    (train_data : δ) (train_labels : List ℕ)
    (test_data : δ) (test_labels : List ℕ) :
    ℚ × (Fin Cc → Fin Cc → ℚ) :=
  let trainvecs := predict_pooled train_data
  let fitted_mean := scaler_mean trainvecs
  let fitted_scale := scaler_scale sq trainvecs
  let teststd := (predict_pooled test_data).map
    (standard_scaler_transform fitted_mean fitted_scale)
  let clf := logreg_fit (trainvecs.map (standard_scaler_transform fitted_mean fitted_scale))
    train_labels
  let preds := teststd.map clf
  let cm := confusion_matrix Cc test_labels preds
  (accuracy_score test_labels preds,
   fun i j => ((cm i j : ℕ) : ℚ) / ((matrix_max cm : ℕ) : ℚ))

/-! ### Theorems -/

/-- C1: For every batch of 2N views with offset labels and every temperature τ,
the training step computes the loss exactly as: L2-normalize each embedding,
form the 2N×2N matrix of pairwise dot products of the normalized vectors,
subtract a large constant on the diagonal only (leaving every off-diagonal
entry unmodified), divide the whole masked matrix by τ, take for each row i
the softmax cross-entropy with target class i + label[i] over all 2N classes,
and return the mean over all 2N rows divided by the replica count. -/
theorem training_step_matches_ntxent_spec {N dd : ℕ} (sq ex lg : ℚ → ℚ)
    (embeddings : Fin (2 * N) → Fin dd → ℚ) (y : Fin (2 * N) → ℤ)
    (temperature replicas : ℚ) :
    training_step_loss sq ex lg embeddings y temperature replicas =
      nt_xent_loss_spec sq ex lg embeddings y temperature replicas := by
  unfold training_step_loss nt_xent_loss_spec
  have hrow : ∀ i j : Fin (2 * N),
      (matmul_transpose_b (l2_normalize sq embeddings) i j
          - BIG_NUMBER * eyeQ (2 * N) i j) / temperature
        = (if i = j then
              dot (l2_normalize sq embeddings i) (l2_normalize sq embeddings j)
                - BIG_NUMBER
            else dot (l2_normalize sq embeddings i) (l2_normalize sq embeddings j))
            / temperature := by
    intro i j
    by_cases h : i = j <;> simp [matmul_transpose_b, dot, eyeQ, h]
  have hsum :
      (∑ i, sparse_softmax_cross_entropy_with_logits ex lg (fin_add_label i (y i))
        (fun j =>
          (matmul_transpose_b (l2_normalize sq embeddings) i j
              - BIG_NUMBER * eyeQ (2 * N) i j) / temperature))
      = (∑ i, sparse_softmax_cross_entropy_with_logits ex lg (fin_add_label i (y i))
        (fun j =>
          (if i = j then
              dot (l2_normalize sq embeddings i) (l2_normalize sq embeddings j)
                - BIG_NUMBER
            else dot (l2_normalize sq embeddings i) (l2_normalize sq embeddings j))
            / temperature)) := by
    apply Finset.sum_congr rfl
    intro i _
    rw [funext (hrow i)]
  rw [hsum]

/-- C4: Passing False for augmentation raises a precondition failure before any
batch is constructed: both the SimCLRTrainer constructor and the dataset
builder fail fast (returning the assertion error rather than any batches),
and no augmented-pair batch is ever produced without an augmentation scheme
(a falsy augment argument, `False` or the empty dict, always yields the
error). -/
theorem augment_false_precondition (cifar_train cifar_test : List ℚ)
    (logdir : String) (td : List String) (temperature lr : ℚ) (lr_decay : ℤ)
    (batch_size : ℕ) (data : List ℚ) (N : ℕ) :
    (simclr_trainer_init cifar_train cifar_test logdir td (AugmentArg.bool false)
        temperature lr lr_decay batch_size =
      Except.error "this method needs an augmentation scheme") ∧
    (build_simclr_dataset data N (AugmentArg.bool false) =
      Except.error "dont you need to augment your data?") ∧
    (build_simclr_dataset data N (AugmentArg.params []) =
      Except.error "dont you need to augment your data?") :=
  ⟨rfl, rfl, rfl⟩

/-- C10: For any two values of the trainingdata constructor argument (all
other arguments equal), SimCLRTrainer produces identical training batch
sequences and identical observable constructor state: the training dataset is
built from the CIFAR-10 data loaded inside the constructor, and the
trainingdata argument, though stored verbatim in the state, is never read by
batch construction, so it cannot influence the loss or the learned weights. -/
theorem trainingdata_noninterference (cifar_train cifar_test : List ℚ)
    (logdir : String) (td1 td2 : List String) (augment : AugmentArg)
    (temperature lr : ℚ) (lr_decay : ℤ) (batch_size : ℕ) :
    ((simclr_trainer_init cifar_train cifar_test logdir td1 augment
        temperature lr lr_decay batch_size).map observable_state =
      (simclr_trainer_init cifar_train cifar_test logdir td2 augment
        temperature lr lr_decay batch_size).map observable_state) ∧
    ((simclr_trainer_init cifar_train cifar_test logdir td1 augment
        temperature lr lr_decay batch_size).map (fun s => s.trainingdata) =
      (simclr_trainer_init cifar_train cifar_test logdir td1 augment
        temperature lr lr_decay batch_size).map (fun _ => td1)) := by
  unfold simclr_trainer_init
  by_cases h : AugmentArg.isNotFalse augment = false
  · simp [h, Except.map]
  · simp only [h, if_false, Bool.false_eq_true]
    cases hds : build_simclr_dataset (cifar_train.map fun v => v / 255)
        batch_size augment <;>
      simp [hds, Except.map, observable_state]

/-- The model bucket collects, in order, exactly the keyword arguments whose
key is neither `augment` nor in `INPUT_PARAMS`. -/
theorem parse_configs_loop_config (l : List (String × ConfigValue))
    (acc : ParsedConfig) :
    (parse_configs_loop l acc).config =
      acc.config ++ l.filter fun p =>
        !(decide (p.1 = "augment")) && !(decide (p.1 ∈ INPUT_PARAMS)) := by
  induction l generalizing acc with
  | nil => simp [parse_configs_loop]
  | cons hd tl ih =>
    obtain ⟨k, v⟩ := hd
    by_cases h1 : k = "augment"
    · simp [parse_configs_loop, h1, ih]
    · by_cases h2 : k ∈ INPUT_PARAMS
      · simp [parse_configs_loop, h1, h2, ih]
      · simp [parse_configs_loop, h1, h2, ih]

/-- The input bucket collects, in order, exactly the keyword arguments whose
key is in `INPUT_PARAMS` and is not `augment`. -/
theorem parse_configs_loop_input (l : List (String × ConfigValue))
    (acc : ParsedConfig) :
    (parse_configs_loop l acc).input_config =
      acc.input_config ++ l.filter fun p =>
        !(decide (p.1 = "augment")) && decide (p.1 ∈ INPUT_PARAMS) := by
  induction l generalizing acc with
  | nil => simp [parse_configs_loop]
  | cons hd tl ih =>
    obtain ⟨k, v⟩ := hd
    by_cases h1 : k = "augment"
    · simp [parse_configs_loop, h1, ih]
    · by_cases h2 : k ∈ INPUT_PARAMS
      · simp [parse_configs_loop, h1, h2, ih]
      · simp [parse_configs_loop, h1, h2, ih]

/-- If no remaining keyword argument is named `augment`, the augment bucket is
left as it stands. -/
theorem parse_configs_loop_augment_skip (l : List (String × ConfigValue))
    (acc : ParsedConfig) (h : ∀ p ∈ l, p.1 ≠ "augment") :
    (parse_configs_loop l acc).augment_config = acc.augment_config := by
  induction l generalizing acc with
  | nil => simp [parse_configs_loop]
  | cons hd tl ih =>
    obtain ⟨k, v⟩ := hd
    have hk : k ≠ "augment" := h (k, v) (List.mem_cons_self _ _)
    by_cases h2 : k ∈ INPUT_PARAMS
    · simp only [parse_configs_loop, if_neg hk, if_pos h2]
      exact ih _ fun p hp => h p (List.mem_cons_of_mem _ hp)
    · simp only [parse_configs_loop, if_neg hk, if_neg h2]
      exact ih _ fun p hp => h p (List.mem_cons_of_mem _ hp)

/-- With distinct keyword names (as Python `**kwargs` guarantees), the value
supplied under the key `augment` ends up in the augment bucket. -/
theorem parse_configs_loop_augment_mem (l : List (String × ConfigValue))
    (acc : ParsedConfig) (v : ConfigValue)
    (hnd : (l.map Prod.fst).Nodup) (hmem : ("augment", v) ∈ l) :
    (parse_configs_loop l acc).augment_config = v := by
  induction l generalizing acc with
  | nil => simp at hmem
  | cons hd tl ih =>
    obtain ⟨k, w⟩ := hd
    simp only [List.map_cons, List.nodup_cons] at hnd
    obtain ⟨hknot, hndtl⟩ := hnd
    rcases List.mem_cons.mp hmem with hhd | htl
    · have hk : k = "augment" := by
        have := congrArg Prod.fst hhd.symm
        simpa using this
      have hv : w = v := by
        have := congrArg Prod.snd hhd.symm
        simpa using this
      subst hk
      subst hv
      simp only [parse_configs_loop, if_pos rfl]
      refine parse_configs_loop_augment_skip tl _ fun p hp => ?_
      intro hpk
      exact hknot (hpk ▸ List.mem_map_of_mem Prod.fst hp)
    · have hk : k ≠ "augment" := by
        intro hkk
        subst hkk
        exact hknot (List.mem_map_of_mem Prod.fst htl)
      by_cases h2 : k ∈ INPUT_PARAMS
      · simp only [parse_configs_loop, if_neg hk, if_pos h2]
        exact ih _ hndtl htl
      · simp only [parse_configs_loop, if_neg hk, if_neg h2]
        exact ih _ hndtl htl

/-- C9: The config recorder partitions every constructor-supplied keyword
parameter into exactly three buckets by a fixed membership list (`augment`
into its own bucket, keys of `INPUT_PARAMS` into the input bucket, everything
else into the model bucket); in particular, given
imshape=(32,32), lr=0.01, augment=True, the input bucket contains imshape,
the model bucket contains lr, and the augment bucket equals True. -/
theorem parse_configs_partition (kwargs : List (String × ConfigValue))
    (hnd : (kwargs.map Prod.fst).Nodup) :
    ((parse_configs kwargs).config =
      kwargs.filter fun p =>
        !(decide (p.1 = "augment")) && !(decide (p.1 ∈ INPUT_PARAMS))) ∧
    ((parse_configs kwargs).input_config =
      kwargs.filter fun p =>
        !(decide (p.1 = "augment")) && decide (p.1 ∈ INPUT_PARAMS)) ∧
    (∀ v : ConfigValue, ("augment", v) ∈ kwargs →
      (parse_configs kwargs).augment_config = v) ∧
    (("imshape", ConfigValue.pair 32 32) ∈ (parse_configs scenario_kwargs).input_config ∧
      ("lr", ConfigValue.rat (1 / 100)) ∈ (parse_configs scenario_kwargs).config ∧
      (parse_configs scenario_kwargs).augment_config = ConfigValue.bool true) := by
  refine ⟨?_, ?_, ?_, ?_, ?_, ?_⟩
  · simpa using parse_configs_loop_config kwargs (ParsedConfig.mk [] [] (ConfigValue.bool false))
  · simpa using parse_configs_loop_input kwargs (ParsedConfig.mk [] [] (ConfigValue.bool false))
  · intro v hv
    exact parse_configs_loop_augment_mem kwargs _ v hnd hv
  · show ("imshape", ConfigValue.pair 32 32) ∈ [("imshape", ConfigValue.pair 32 32)]
    exact List.mem_singleton.mpr rfl
  · show ("lr", ConfigValue.rat (1 / 100)) ∈ [("lr", ConfigValue.rat (1 / 100))]
    exact List.mem_singleton.mpr rfl
  · rfl

/-- One unfolding of `fit`: an epoch trace, the optional save, then the rest
of the run from the advanced state. -/
theorem fit_succ (E : ℕ) (sv ev : Bool) (s : SimCLRTrainerState) :
    fit (E + 1) sv ev s =
      ((run_training_epoch s).1 ++ (if sv then [TrainEvent.saveModels] else [])
        ++ (fit E sv ev (run_training_epoch s).2).1,
       (fit E sv ev (run_training_epoch s).2).2) := rfl

/-- Closed form of a `fit` run: the trace is the concatenation, epoch by
epoch, of one step event per batch at consecutive counter values followed by
the optional save, and the final state is the input state with the counter
advanced by epochs × batches. -/
theorem fit_trace_spec (E : ℕ) (sv ev : Bool) (s : SimCLRTrainerState) :
    fit E sv ev s =
      (((List.range E).map fun e =>
          (List.range' (s.step + e * s.ds.length) s.ds.length).map TrainEvent.step
            ++ (if sv then [TrainEvent.saveModels] else [])).flatten,
       set_step s (s.step + E * s.ds.length)) := by
  induction E generalizing s with
  | zero =>
    simp [fit, set_step]
  | succ E ih =>
    rw [fit_succ, ih]
    have hds : ((run_training_epoch s).2).ds = s.ds := rfl
    have hst : ((run_training_epoch s).2).step = s.step + s.ds.length := rfl
    refine Prod.ext ?_ ?_
    · simp only [hds, hst, List.range_succ_eq_map, List.map_cons, List.map_map,
        List.flatten_cons]
      congr 1
      · congr 1
        simp [run_training_epoch, List.range'_eq_map_range, List.map_map,
          Function.comp]
      · refine congrArg List.flatten (List.map_congr_left ?_)
        intro e he
        simp only [Function.comp]
        congr 3
        rw [Nat.succ_mul]
        ring
    · show set_step (run_training_epoch s).2
          (((run_training_epoch s).2).step + E * ((run_training_epoch s).2).ds.length)
          = set_step s (s.step + (E + 1) * s.ds.length)
      simp only [hds, hst, set_step]
      congr 1
      ring

/-- An epoch trace contains only step events, so no save events. -/
theorem run_training_epoch_count_save (s : SimCLRTrainerState) :
    (run_training_epoch s).1.count TrainEvent.saveModels = 0 := by
  rw [List.count_eq_zero]
  simp [run_training_epoch]

/-- An epoch trace contains only step events, so no evaluation events. -/
theorem run_training_epoch_count_eval (s : SimCLRTrainerState) :
    (run_training_epoch s).1.count TrainEvent.runEval = 0 := by
  rw [List.count_eq_zero]
  simp [run_training_epoch]

/-- Exact number of save events of a `fit` run: one per epoch when saving is
requested, none otherwise. -/
theorem fit_count_save (E : ℕ) (sv ev : Bool) (s : SimCLRTrainerState) :
    (fit E sv ev s).1.count TrainEvent.saveModels = if sv then E else 0 := by
  induction E generalizing s with
  | zero => cases sv <;> simp [fit]
  | succ E ih =>
    rw [fit_succ]
    simp only [List.count_append, run_training_epoch_count_save, ih]
    cases sv <;> simp [Nat.add_comm]

/-- The step events of a trace of consecutive step events recover the
recorded counters. -/
theorem steps_of_map_step (a : ℕ) (l : List ℕ) :
    steps_of (l.map fun i => TrainEvent.step (a + i)) = l.map (a + ·) := by
  induction l with
  | nil => rfl
  | cons x xs ih => simp only [List.map_cons, steps_of, List.filterMap_cons] at *; rw [ih]

/-- The step-counter values recorded by a `fit` run are exactly the
consecutive integers starting at the incoming counter, one per batch
processed. -/
theorem fit_steps_of (E : ℕ) (sv ev : Bool) (s : SimCLRTrainerState) :
    steps_of (fit E sv ev s).1 = List.range' s.step (E * s.ds.length) := by
  induction E generalizing s with
  | zero => simp [fit, steps_of]
  | succ E ih =>
    rw [fit_succ]
    have hepoch : steps_of (run_training_epoch s).1 = List.range' s.step s.ds.length := by
      rw [show (run_training_epoch s).1
            = (List.range s.ds.length).map (fun i => TrainEvent.step (s.step + i)) from rfl,
        steps_of_map_step, List.range'_eq_map_range]
    have hsave : steps_of (if sv then [TrainEvent.saveModels] else []) = [] := by
      cases sv <;> simp [steps_of]
    simp only [steps_of, List.filterMap_append] at *
    rw [hepoch, hsave, ih]
    have hds : ((run_training_epoch s).2).ds = s.ds := rfl
    have hst : ((run_training_epoch s).2).step = s.step + s.ds.length := rfl
    rw [hds, hst, List.append_nil, List.range'_append_1]
    rw [Nat.succ_mul, Nat.add_comm (E * s.ds.length)]

/-- Witness for C9: the partition theorem applied to the concrete scenario
keyword set, whose keys are distinct. -/
theorem parse_configs_partition_witness :
    ((scenario_kwargs.map Prod.fst).Nodup) ∧
    (((parse_configs scenario_kwargs).config =
      scenario_kwargs.filter fun p =>
        !(decide (p.1 = "augment")) && !(decide (p.1 ∈ INPUT_PARAMS))) ∧
    ((parse_configs scenario_kwargs).input_config =
      scenario_kwargs.filter fun p =>
        !(decide (p.1 = "augment")) && decide (p.1 ∈ INPUT_PARAMS)) ∧
    (∀ v : ConfigValue, ("augment", v) ∈ scenario_kwargs →
      (parse_configs scenario_kwargs).augment_config = v) ∧
    (("imshape", ConfigValue.pair 32 32) ∈ (parse_configs scenario_kwargs).input_config ∧
      ("lr", ConfigValue.rat (1 / 100)) ∈ (parse_configs scenario_kwargs).config ∧
      (parse_configs scenario_kwargs).augment_config = ConfigValue.bool true)) :=
  ⟨by decide, parse_configs_partition scenario_kwargs (by decide)⟩

/-- Element `i` of the flattened two-views-per-image stream: the source image
at index `i / 2`, tagged with which augmentation draw (`i % 2`) produced it,
and the alternating offset label `+1 / -1`. -/
theorem pair_stream_getElem {α : Type} (data : List α) (i : ℕ) :
    ((data.map augment_and_stack).flatten)[i]? =
      (data[i / 2]?).map fun x =>
        ((x, decide (i % 2 = 1)), if i % 2 = 0 then (1 : ℤ) else -1) := by
  induction data generalizing i with
  | nil => simp
  | cons x xs ih =>
    match i with
    | 0 => simp [augment_and_stack]
    | 1 => simp [augment_and_stack]
    | (j + 2) =>
      have h1 : (j + 2) / 2 = j / 2 + 1 := by omega
      have h2 : (j + 2) % 2 = j % 2 := by omega
      have hL : ((x :: xs).map augment_and_stack).flatten
          = ((x, false), (1 : ℤ)) :: ((x, true), (-1 : ℤ))
              :: (xs.map augment_and_stack).flatten := rfl
      rw [hL, List.getElem?_cons_succ, List.getElem?_cons_succ, ih, h1, h2,
        List.getElem?_cons_succ]

/-- The two-views-per-image stream has twice as many views as source
images. -/
theorem pair_stream_length {α : Type} (data : List α) :
    ((data.map augment_and_stack).flatten).length = 2 * data.length := by
  induction data with
  | nil => rfl
  | cons x xs ih =>
    simp only [List.map_cons, List.flatten_cons, List.length_append, ih,
      augment_and_stack, List.length_cons, List.length_nil]
    omega

/-- Number of produced physical batches. -/
theorem tf_batch_length {β : Type} (n : ℕ) (l : List β) :
    (tf_batch_drop_remainder n l).length = l.length / n := by
  simp [tf_batch_drop_remainder]

/-- The `b`-th physical batch, for `b` within the produced range. -/
theorem tf_batch_getElem {β : Type} (n : ℕ) (l : List β) (b : ℕ)
    (hb : b < l.length / n) :
    (tf_batch_drop_remainder n l)[b]? = some ((l.drop (n * b)).take n) := by
  simp [tf_batch_drop_remainder, hb]

/-- Every produced batch lies entirely inside the stream. -/
theorem tf_batch_chunk_le {β : Type} (n : ℕ) (l : List β) (b : ℕ)
    (hb : b < l.length / n) : n * b + n ≤ l.length := by
  have h1 : (b + 1) * n ≤ (l.length / n) * n := Nat.mul_le_mul_right n hb
  have h2 : (l.length / n) * n ≤ l.length := Nat.div_mul_le_self l.length n
  calc n * b + n = (b + 1) * n := by ring
    _ ≤ l.length := le_trans h1 h2

/-- With `drop_remainder=True` every produced batch has exactly `n`
elements. -/
theorem tf_batch_mem_length {β : Type} (n : ℕ) (l : List β) :
    ∀ batch ∈ tf_batch_drop_remainder n l, batch.length = n := by
  intro batch hmem
  simp only [tf_batch_drop_remainder, List.mem_map, List.mem_range] at hmem
  obtain ⟨b, hb, rfl⟩ := hmem
  have := tf_batch_chunk_le n l b hb
  simp only [List.length_take, List.length_drop]
  omega

/-- Element `j` of batch `b` is element `n * b + j` of the stream. -/
theorem tf_batch_entry {β : Type} (n : ℕ) (l : List β) (b j : ℕ)
    (hj : j < n) :
    ((l.drop (n * b)).take n)[j]? = l[n * b + j]? := by
  rw [List.getElem?_take_of_lt hj, List.getElem?_drop]

/-- C2: For every N≥1 and batch_size=N, the pair-batch builder produces
batches of exactly 2N views in which views 2k and 2k+1 are the two
independently augmented views of the same source image (both always in the
same physical batch), and the label array alternates so that label[2k]=+1,
label[2k+1]=-1, and 2k + label[2k] == 2k+1, i.e. index + label is always the
twin's position. -/
theorem pair_batch_builder_spec {α : Type} (data : List α) (N b k : ℕ)
    (augment : AugmentArg) (hA : AugmentArg.truthy augment = true)
    (hN : 1 ≤ N) (hb : b < data.length / N) (hk : k < N) :
    ∃ batches, build_simclr_dataset data N augment = Except.ok batches ∧
      batches.length = data.length / N ∧
      (∀ batch ∈ batches, batch.length = 2 * N) ∧
      ∃ src batch, data[N * b + k]? = some src ∧ batches[b]? = some batch ∧
        batch[2 * k]? = some ((src, false), (1 : ℤ)) ∧
        batch[2 * k + 1]? = some ((src, true), (-1 : ℤ)) ∧
        ((2 * k : ℤ) + 1 = ((2 * k + 1 : ℕ) : ℤ) ∧
          ((2 * k + 1 : ℕ) : ℤ) + (-1) = (2 * k : ℤ)) := by
  have hbuild : build_simclr_dataset data N augment =
      Except.ok (tf_batch_drop_remainder (2 * N)
        ((data.map augment_and_stack).flatten)) := by
    simp [build_simclr_dataset, hA]
  set stream := (data.map augment_and_stack).flatten with hstream
  have hlen : stream.length = 2 * data.length := pair_stream_length data
  have hdiv : stream.length / (2 * N) = data.length / N := by
    rw [hlen, Nat.mul_div_mul_left _ _ (by norm_num : 0 < 2)]
  have hb' : b < stream.length / (2 * N) := by
    rw [hdiv]
    exact hb
  refine ⟨_, hbuild, ?_, ?_, ?_⟩
  · rw [tf_batch_length, hdiv]
  · exact tf_batch_mem_length (2 * N) stream
  · have hchunk := tf_batch_chunk_le (2 * N) stream b hb'
    rw [hlen] at hchunk
    have hmul : 2 * N * b = 2 * (N * b) := by ring
    rw [hmul] at hchunk
    have hidx : N * b + k < data.length := by omega
    refine ⟨data[N * b + k], (stream.drop (2 * N * b)).take (2 * N),
      List.getElem?_eq_getElem hidx, tf_batch_getElem (2 * N) stream b hb', ?_, ?_, ?_⟩
    · rw [tf_batch_entry (2 * N) stream b (2 * k) (by omega), hmul, pair_stream_getElem]
      have h1 : (2 * (N * b) + 2 * k) / 2 = N * b + k := by omega
      have h2 : (2 * (N * b) + 2 * k) % 2 = 0 := by omega
      rw [h1, h2, List.getElem?_eq_getElem hidx]
      simp
    · rw [tf_batch_entry (2 * N) stream b (2 * k + 1) (by omega), hmul, pair_stream_getElem]
      have h1 : (2 * (N * b) + (2 * k + 1)) / 2 = N * b + k := by omega
      have h2 : (2 * (N * b) + (2 * k + 1)) % 2 = 1 := by omega
      rw [h1, h2, List.getElem?_eq_getElem hidx]
      simp
    · constructor <;> push_cast <;> ring

/-- Witness for C2: two source images, batch_size 1: the single pair of views
of image 0 lands in batch 0 with labels +1, -1. -/
theorem pair_batch_builder_spec_witness :
    ∃ batches, build_simclr_dataset [(3 : ℚ), 7] 1 (AugmentArg.bool true) =
        Except.ok batches ∧
      batches.length = [(3 : ℚ), 7].length / 1 ∧
      (∀ batch ∈ batches, batch.length = 2 * 1) ∧
      ∃ src batch, [(3 : ℚ), 7][1 * 0 + 0]? = some src ∧ batches[0]? = some batch ∧
        batch[2 * 0]? = some ((src, false), (1 : ℤ)) ∧
        batch[2 * 0 + 1]? = some ((src, true), (-1 : ℤ)) ∧
        ((2 * 0 : ℤ) + 1 = ((2 * 0 + 1 : ℕ) : ℤ) ∧
          ((2 * 0 + 1 : ℕ) : ℤ) + (-1) = (2 * 0 : ℤ)) :=
  pair_batch_builder_spec [(3 : ℚ), 7] 1 0 0 (AugmentArg.bool true) rfl
    (by decide) (by decide) (by decide)

/-- C6: For every E≥1, calling fit(epochs=E, save=True) invokes the
durable-storage save exactly E times, once at the end of each epoch (the
trace is the epoch-by-epoch concatenation of one step event per batch
followed by one save event), and across the whole run the global step
counter increases strictly monotonically, incremented once per batch (the
recorded steps are the consecutive integers from the incoming counter), and
is never reset between epochs (the final counter is the incoming counter
plus epochs × batches). -/
theorem fit_save_per_epoch (E : ℕ) (ev : Bool) (s : SimCLRTrainerState)
    (hE : 1 ≤ E) :
    ((fit E true ev s).1.count TrainEvent.saveModels = E) ∧
    ((fit E true ev s).1 =
      ((List.range E).map fun e =>
        (List.range' (s.step + e * s.ds.length) s.ds.length).map TrainEvent.step
          ++ [TrainEvent.saveModels]).flatten) ∧
    (steps_of (fit E true ev s).1 = List.range' s.step (E * s.ds.length)) ∧
    ((fit E true ev s).2.step = s.step + E * s.ds.length) := by
  refine ⟨?_, ?_, ?_, ?_⟩
  · rw [fit_count_save]
    simp
  · rw [fit_trace_spec]
    simp
  · exact fit_steps_of E true ev s
  · rw [fit_trace_spec]
    rfl

/-- Witness for C6: one epoch over the sample state saves once, records the
single step at counter 5 and leaves the counter at 6. -/
theorem fit_save_per_epoch_witness :
    1 ≤ 1 ∧
    (((fit 1 true true sample_trainer_state).1.count TrainEvent.saveModels = 1) ∧
    ((fit 1 true true sample_trainer_state).1 =
      ((List.range 1).map fun e =>
        (List.range' (sample_trainer_state.step + e * sample_trainer_state.ds.length)
            sample_trainer_state.ds.length).map TrainEvent.step
          ++ [TrainEvent.saveModels]).flatten) ∧
    (steps_of (fit 1 true true sample_trainer_state).1 =
      List.range' sample_trainer_state.step (1 * sample_trainer_state.ds.length)) ∧
    ((fit 1 true true sample_trainer_state).2.step =
      sample_trainer_state.step + 1 * sample_trainer_state.ds.length)) :=
  ⟨Nat.le_refl 1, fit_save_per_epoch 1 true sample_trainer_state (Nat.le_refl 1)⟩

/-- C7 counterexample: with the evaluate flag enabled, one epoch of fit on
the sample state performs no evaluation call at all (the claim predicts one
per epoch), because the evaluation call inside the fit loop is commented out
in the source. -/
theorem fit_evaluate_flag_counterexample :
    ¬ ((fit 1 true true sample_trainer_state).1.count TrainEvent.runEval = 1) := by
  decide

/-- Every confusion-matrix entry is bounded by the matrix maximum. -/
theorem le_matrix_max {Cc : ℕ} (M : Fin Cc → Fin Cc → ℕ) (i j : Fin Cc) :
    M i j ≤ matrix_max M :=
  @Finset.le_sup ℕ (Fin Cc × Fin Cc) _ _ Finset.univ
    (fun ij : Fin Cc × Fin Cc => M ij.1 ij.2) (i, j) (Finset.mem_univ (i, j))

/-- C8: In the linear-probe evaluation, the standardizing scaler (per-feature
mean and scale) is fit on the train feature vectors only and the same fitted
transform is applied to the test vectors (no leakage from test data into the
scaler) — the emitted metrics coincide with the specification pipeline that
fits the scaler on the train vectors alone — and the resulting confusion
matrix is emitted normalized to [0,1] by dividing by its maximum entry. -/
theorem linear_probe_no_leakage {δ : Type} {d : ℕ} (Cc : ℕ) (sq : ℚ → ℚ)
    (predict_pooled : δ → List (Fin d → ℚ))
    (logreg_fit : List (Fin d → ℚ) → List ℕ → (Fin d → ℚ) → ℕ)
    (train_data : δ) (train_labels : List ℕ)
    (test_data : δ) (test_labels : List ℕ)
    (hmax : 0 < matrix_max ((linear_classification_test Cc sq predict_pooled logreg_fit
      train_data train_labels test_data test_labels).2)) :
    (linear_classification_metrics Cc sq predict_pooled logreg_fit
        train_data train_labels test_data test_labels
      = linear_probe_spec Cc sq predict_pooled logreg_fit
        train_data train_labels test_data test_labels) ∧
    (∀ i j : Fin Cc,
      0 ≤ (linear_classification_metrics Cc sq predict_pooled logreg_fit
            train_data train_labels test_data test_labels).2 i j ∧
      (linear_classification_metrics Cc sq predict_pooled logreg_fit
            train_data train_labels test_data test_labels).2 i j ≤ 1) := by
  constructor
  · rfl
  · intro i j
    constructor
    · show (0 : ℚ) ≤ _ / _
      apply div_nonneg
      · exact_mod_cast Nat.zero_le _
      · exact_mod_cast Nat.zero_le _
    · show (_ : ℚ) / _ ≤ 1
      rw [div_le_one (by exact_mod_cast hmax)]
      exact_mod_cast le_matrix_max
        ((linear_classification_test Cc sq predict_pooled logreg_fit
          train_data train_labels test_data test_labels).2) i j

/-- In the two-point witness run the confusion matrix is the 2×2 matrix of
the label lists [0,1] against predictions [0,1]. -/
theorem linear_probe_witness_cm :
    ((linear_classification_test 2 id
      (id : List (Fin 1 → ℚ) → List (Fin 1 → ℚ))
      (fun _ _ v => if v 0 < 0 then 0 else 1)
      [fun _ => -1, fun _ => 1] [0, 1]
      [fun _ => -1, fun _ => 1] [0, 1]).2) = confusion_matrix 2 [0, 1] [0, 1] := by
  show confusion_matrix 2 [0, 1] _ = confusion_matrix 2 [0, 1] [0, 1]
  norm_num [scaler_mean, scaler_scale, standard_scaler_transform]

/-- Witness for C8: a two-point, one-feature, two-class probe run with
identity collaborators; its confusion matrix is the identity with maximum
entry 1. -/
theorem linear_probe_no_leakage_witness :
    0 < matrix_max ((linear_classification_test 2 id
        (id : List (Fin 1 → ℚ) → List (Fin 1 → ℚ))
        (fun _ _ v => if v 0 < 0 then 0 else 1)
        [fun _ => -1, fun _ => 1] [0, 1]
        [fun _ => -1, fun _ => 1] [0, 1]).2) ∧
    ((linear_classification_metrics 2 id
        (id : List (Fin 1 → ℚ) → List (Fin 1 → ℚ))
        (fun _ _ v => if v 0 < 0 then 0 else 1)
        [fun _ => -1, fun _ => 1] [0, 1]
        [fun _ => -1, fun _ => 1] [0, 1]
      = linear_probe_spec 2 id
        (id : List (Fin 1 → ℚ) → List (Fin 1 → ℚ))
        (fun _ _ v => if v 0 < 0 then 0 else 1)
        [fun _ => -1, fun _ => 1] [0, 1]
        [fun _ => -1, fun _ => 1] [0, 1]) ∧
    (∀ i j : Fin 2,
      0 ≤ (linear_classification_metrics 2 id
            (id : List (Fin 1 → ℚ) → List (Fin 1 → ℚ))
            (fun _ _ v => if v 0 < 0 then 0 else 1)
            [fun _ => -1, fun _ => 1] [0, 1]
            [fun _ => -1, fun _ => 1] [0, 1]).2 i j ∧
      (linear_classification_metrics 2 id
            (id : List (Fin 1 → ℚ) → List (Fin 1 → ℚ))
            (fun _ _ v => if v 0 < 0 then 0 else 1)
            [fun _ => -1, fun _ => 1] [0, 1]
            [fun _ => -1, fun _ => 1] [0, 1]).2 i j ≤ 1)) :=
  ⟨by rw [linear_probe_witness_cm]; decide,
   linear_probe_no_leakage 2 id
     (id : List (Fin 1 → ℚ) → List (Fin 1 → ℚ))
     (fun _ _ v => if v 0 < 0 then 0 else 1)
     [fun _ => -1, fun _ => 1] [0, 1]
     [fun _ => -1, fun _ => 1] [0, 1]
     (by rw [linear_probe_witness_cm]; decide)⟩

/-- C3 counterexample: the trainer accepts the temperature τ=1000 without any
precondition failure, yet with that accepted temperature a diagonal
similarity of 1 (and one off-diagonal similarity 1) keeps a relative softmax
weight of about 0.27, far above 1e-6 — so the claim quantified over every
temperature the trainer accepts is false. -/
theorem diag_softmax_weight_counterexample :
    exceptOk (simclr_trainer_init [] [] "" [] (AugmentArg.bool true) 1000
        (1 / 100) 10000 64) = true ∧
    1 / 1000000 ≤
      Real.exp ((diag_masked_logit 1 1000 : ℚ) : ℝ)
        / (Real.exp ((diag_masked_logit 1 1000 : ℚ) : ℝ)
            + (([1] : List ℚ).map fun o =>
                Real.exp ((offdiag_logit o 1000 : ℚ) : ℝ)).sum) := by
  constructor
  · rfl
  · have hd : ((diag_masked_logit 1 1000 : ℚ) : ℝ) = -999 / 1000 := by
      rw [diag_masked_logit, BIG_NUMBER]
      push_cast
      norm_num
    have ho : ((offdiag_logit 1 1000 : ℚ) : ℝ) = 1 / 1000 := by
      rw [offdiag_logit]
      push_cast
      norm_num
    rw [List.map_cons, List.map_nil, List.sum_cons, List.sum_nil, hd, ho, add_zero]
    have hE1 : Real.exp (-1 : ℝ) ≤ Real.exp (-999 / 1000 : ℝ) :=
      Real.exp_le_exp.mpr (by norm_num)
    have hE3 : (1 / 3 : ℝ) ≤ Real.exp (-1 : ℝ) := by
      have hexp3 : Real.exp 1 ≤ 3 := le_of_lt (lt_trans Real.exp_one_lt_d9 (by norm_num))
      have := one_div_le_one_div_of_le (Real.exp_pos 1) hexp3
      rw [Real.exp_neg, inv_eq_one_div]
      exact le_trans (by norm_num) this
    have hS1 : Real.exp (1 / 1000 : ℝ) ≤ Real.exp 1 := Real.exp_le_exp.mpr (by norm_num)
    have hS2 : Real.exp (1 : ℝ) < 3 := lt_trans Real.exp_one_lt_d9 (by norm_num)
    have hden : 0 < Real.exp (-999 / 1000 : ℝ) + Real.exp (1 / 1000 : ℝ) := by
      have := Real.exp_pos (-999 / 1000 : ℝ)
      have := Real.exp_pos (1 / 1000 : ℝ)
      linarith
    rw [le_div_iff₀ hden]
    have hE : (1 / 3 : ℝ) ≤ Real.exp (-999 / 1000 : ℝ) := le_trans hE3 hE1
    have hS : Real.exp (1 / 1000 : ℝ) < 3 := lt_of_le_of_lt hS1 hS2
    linarith

/-- C3 amended: For every similarity value in [-1,1] on the diagonal, any
nonempty set of off-diagonal similarities in [-1,1] in the same row, and
every temperature 0 < τ ≤ 71 (a range containing the trainer defaults 0.1
and 1; the trainer itself accepts any τ unchecked), after subtracting the
masking constant from the diagonal and dividing by τ, the diagonal entry's
relative weight in its row's softmax is below 1e-6, so self-similarity is
effectively excluded from the loss. -/
theorem diag_softmax_weight_negligible (s τ : ℚ) (os : List ℚ)
    (hs1 : -1 ≤ s) (hs2 : s ≤ 1)
    (hos : ∀ o ∈ os, -1 ≤ o ∧ o ≤ 1)
    (hne : os ≠ [])
    (hτ0 : 0 < τ) (hτ71 : τ ≤ 71) :
    Real.exp ((diag_masked_logit s τ : ℚ) : ℝ)
      / (Real.exp ((diag_masked_logit s τ : ℚ) : ℝ)
          + (os.map fun o => Real.exp ((offdiag_logit o τ : ℚ) : ℝ)).sum)
      < 1 / 1000000 := by
  obtain ⟨o, rest, rfl⟩ := List.exists_cons_of_ne_nil hne
  have hτ'0 : (0 : ℝ) < (τ : ℝ) := by exact_mod_cast hτ0
  have hτ'71 : (τ : ℝ) ≤ 71 := by exact_mod_cast hτ71
  have hs2' : (s : ℝ) ≤ 1 := by exact_mod_cast hs2
  have ho1 : (-1 : ℝ) ≤ (o : ℝ) := by
    exact_mod_cast (hos o (List.mem_cons_self o rest)).1
  have hdlog : ((diag_masked_logit s τ : ℚ) : ℝ) = ((s : ℝ) - 1000) / (τ : ℝ) := by
    rw [diag_masked_logit, BIG_NUMBER]
    push_cast
    ring
  have holog : ((offdiag_logit o τ : ℚ) : ℝ) = (o : ℝ) / (τ : ℝ) := by
    rw [offdiag_logit]
    push_cast
    ring
  rw [hdlog, List.map_cons, List.sum_cons, holog]
  set a : ℝ := Real.exp (((s : ℝ) - 1000) / (τ : ℝ)) with ha
  set R : ℝ := ((rest.map fun q => Real.exp ((offdiag_logit q τ : ℚ) : ℝ)).sum) with hR
  have hrest : 0 ≤ R := by
    apply List.sum_nonneg
    intro x hx
    obtain ⟨q, hq, rfl⟩ := List.mem_map.mp hx
    exact (Real.exp_pos _).le
  have hS1 : Real.exp ((-1 : ℝ) / (τ : ℝ)) ≤ Real.exp ((o : ℝ) / (τ : ℝ)) := by
    apply Real.exp_le_exp.mpr
    gcongr
  have hkey : a ≤ Real.exp (-14 : ℝ) * Real.exp ((-1 : ℝ) / (τ : ℝ)) := by
    have hsplit : ((s : ℝ) - 1000) / (τ : ℝ)
        = ((s : ℝ) - 999) / (τ : ℝ) + (-1 : ℝ) / (τ : ℝ) := by ring
    rw [ha, hsplit, Real.exp_add]
    have h1 : ((s : ℝ) - 999) / (τ : ℝ) ≤ -14 := by
      have hnum : (s : ℝ) - 999 ≤ -998 := by linarith
      have hstep : ((s : ℝ) - 999) / (τ : ℝ) ≤ (-998 : ℝ) / (τ : ℝ) := by gcongr
      have h2 : (-998 : ℝ) / (τ : ℝ) ≤ -14 := by
        rw [div_le_iff₀ hτ'0]
        linarith
      linarith
    exact mul_le_mul_of_nonneg_right (Real.exp_le_exp.mpr h1) (Real.exp_pos _).le
  have hlt : Real.exp (-14 : ℝ) < 1 / 1000000 := by
    have h14 : (1000000 : ℝ) < Real.exp 14 := by
      have hp : (2.7182818283 : ℝ) ^ (14 : ℕ) ≤ Real.exp 1 ^ (14 : ℕ) :=
        pow_le_pow_left₀ (by norm_num) (le_of_lt Real.exp_one_gt_d9) 14
      have he : Real.exp 1 ^ (14 : ℕ) = Real.exp 14 := by
        rw [← Real.exp_nat_mul]
        norm_num
      calc (1000000 : ℝ) < 2.7182818283 ^ (14 : ℕ) := by norm_num
        _ ≤ Real.exp 1 ^ (14 : ℕ) := hp
        _ = Real.exp 14 := he
    have hinv := inv_strictAnti₀ (by norm_num : (0 : ℝ) < 1000000) h14
    rw [Real.exp_neg]
    rw [show (1 / 1000000 : ℝ) = ((1000000 : ℝ))⁻¹ by norm_num]
    exact hinv
  have hden : 0 < a + (Real.exp ((o : ℝ) / (τ : ℝ)) + R) := by
    have := Real.exp_pos (((s : ℝ) - 1000) / (τ : ℝ))
    have := Real.exp_pos ((o : ℝ) / (τ : ℝ))
    rw [ha]
    linarith
  rw [div_lt_iff₀ hden]
  have hS : Real.exp ((-1 : ℝ) / (τ : ℝ)) ≤ Real.exp ((o : ℝ) / (τ : ℝ)) + R := by
    linarith
  have hmul1 := mul_lt_mul_of_pos_right hlt (Real.exp_pos ((-1 : ℝ) / (τ : ℝ)))
  have hmul2 := mul_le_mul_of_nonneg_left hS (by norm_num : (0 : ℝ) ≤ 1 / 1000000)
  have hpos := mul_pos (by norm_num : (0 : ℝ) < 1 / 1000000)
    (Real.exp_pos (((s : ℝ) - 1000) / (τ : ℝ)))
  rw [ha]
  nlinarith [hkey, hmul1, hmul2, hpos]

/-- Witness for the amended C3: diagonal similarity 1, one off-diagonal
similarity 1/2, at the builder default temperature 0.1. -/
theorem diag_softmax_weight_negligible_witness :
    (-1 ≤ (1 : ℚ)) ∧ ((1 : ℚ) ≤ 1) ∧
    (∀ o ∈ ([1 / 2] : List ℚ), -1 ≤ o ∧ o ≤ 1) ∧
    (([1 / 2] : List ℚ) ≠ []) ∧ (0 < (1 / 10 : ℚ)) ∧ ((1 / 10 : ℚ) ≤ 71) ∧
    Real.exp ((diag_masked_logit 1 (1 / 10) : ℚ) : ℝ)
      / (Real.exp ((diag_masked_logit 1 (1 / 10) : ℚ) : ℝ)
          + (([1 / 2] : List ℚ).map fun o =>
              Real.exp ((offdiag_logit o (1 / 10) : ℚ) : ℝ)).sum)
      < 1 / 1000000 :=
  ⟨by norm_num, by norm_num,
   by
     intro o ho
     rw [List.mem_singleton] at ho
     subst ho
     constructor <;> norm_num,
   by exact List.cons_ne_nil _ _, by norm_num, by norm_num,
   diag_softmax_weight_negligible 1 (1 / 10) [1 / 2] (by norm_num) (by norm_num)
     (by
       intro o ho
       rw [List.mem_singleton] at ho
       subst ho
       constructor <;> norm_num)
     (by exact List.cons_ne_nil _ _) (by norm_num) (by norm_num)⟩

/-- C5 counterexample: constructing the trainer with the non-positive
temperature τ=-1 succeeds (no PreconditionError is raised), and the training
step is built and computes the loss with the divisor -1 on a concrete batch
of two identical unit embeddings, yielding the finite value 999 — so no
failure happens before or during the computation. -/
theorem no_temperature_check_counterexample :
    exceptOk (simclr_trainer_init [] [] "" [] (AugmentArg.bool true) (-1)
        (1 / 100) 10000 1) = true ∧
    training_step_loss id id id (fun (_ : Fin 2) (_ : Fin 1) => (1 : ℚ))
      (fun i => if (i : ℕ) = 0 then 1 else -1) (-1) 1 = 999 := by
  constructor
  · rfl
  · norm_num [training_step_loss, sparse_softmax_cross_entropy_with_logits,
      l2_normalize, matmul_transpose_b, eyeQ, fin_add_label, BIG_NUMBER,
      Fin.sum_univ_two, Fin.sum_univ_one]

/-- C5 amended: the SimCLR trainer performs no temperature validation at all:
for every τ ≤ 0 (given a valid augmentation argument) the constructor
succeeds and stores that τ for the training step, rather than raising a
PreconditionError. -/
theorem nonpositive_temperature_accepted (cifar_train cifar_test : List ℚ)
    (logdir : String) (td : List String) (τ lr : ℚ) (lr_decay : ℤ)
    (batch_size : ℕ) (hτ : τ ≤ 0) :
    (simclr_trainer_init cifar_train cifar_test logdir td (AugmentArg.bool true)
        τ lr lr_decay batch_size).map (fun st => st.temperature) =
      Except.ok τ := rfl

/-- Witness for the amended C5: τ = -1 is accepted and stored. -/
theorem nonpositive_temperature_accepted_witness :
    ((-1 : ℚ) ≤ 0) ∧
    ((simclr_trainer_init [] [] "" [] (AugmentArg.bool true) (-1) (1 / 100)
        10000 1).map (fun st => st.temperature) = Except.ok (-1)) :=
  ⟨by norm_num,
   nonpositive_temperature_accepted [] [] "" [] (-1) (1 / 100) 10000 1 (by norm_num)⟩

/-- C7 amended: evaluation is gated off unconditionally in fit: whatever the
evaluate flag, fit never invokes the linear-probe evaluation (the call is
commented out in the training loop). -/
theorem fit_never_evaluates (E : ℕ) (sv ev : Bool) (s : SimCLRTrainerState) :
    (fit E sv ev s).1.count TrainEvent.runEval = 0 := by
  induction E generalizing s with
  | zero => simp [fit]
  | succ E ih =>
    rw [fit_succ]
    simp only [List.count_append, run_training_epoch_count_eval, ih]
    cases sv <;> simp

end Simclr
